import Mathlib

/-!
Verification of the seat-allocation and booking core of the movie-booking
service (`src/main.py`).  The Python code is shallowly embedded: the SQLite
tables become lists of records, the global lock makes every `book()` call a
single atomic step, so `book_seats` is modelled as a pure function from a
database state (plus the externally generated random reference code and the
fresh row id) to a result together with the successor state.  Python sets of
seat pairs become `Finset Seat`; SQL `LIKE 'date%'` becomes a prefix test on
the character list; `str.split()[0]` becomes "drop leading blanks, take the
first maximal run of non-blank characters".
-/

namespace MovieBooking

/-- A seat coordinate `(row, seat)`, both 1-based, as the pairs stored in the
Python `booked` sets and in the persisted JSON seat lists. -/
structure Seat where
  row : Nat
  seat : Nat
deriving DecidableEq, Repr

/-- Row of the `movies` table. -/
structure Movie where
  id : Nat
  title : String
  price : ℚ
deriving DecidableEq, Repr

/-- Row of the `theaters` table. -/
structure Theater where
  id : Nat
  name : String
  location : String
deriving DecidableEq, Repr

/-- Row of the `halls` table; `rows` is the decoded JSON list of per-row seat
capacities. -/
structure Hall where
  id : Nat
  name : String
  theater_id : Nat
  rows : List Nat
deriving DecidableEq, Repr

/-- Row of the `shows` table. -/
structure Show where
  id : Nat
  movie_id : Nat
  hall_id : Nat
  time : String
deriving DecidableEq, Repr

/-- Row of the `bookings` table; `seats` is the decoded JSON seat list. -/
structure Booking where
  id : Nat
  show_id : Nat
  ref : String
  seats : List Seat
  amount : ℚ
  size : Int
deriving DecidableEq, Repr

/-- The request body of `POST /bookings` (`BookingRequest` in `main.py`).
`group_size` is an arbitrary integer: the pydantic model does not constrain
its sign. -/
structure BookingRequest where
  movie_id : Nat
  show_time : String
  theater_id : Nat
  group_size : Int
deriving DecidableEq, Repr

/-- One entry of the `alternatives` list built by `find_other_shows`. -/
structure AltShow where
  show_id : Nat
  movie : String
  theater : String
  time : String
deriving DecidableEq, Repr

/-- The JSON object returned by a successful `book_seats` call. -/
structure BookResult where
  booking_ref : String
  movie : String
  theater : String
  time : String
  seats : List Seat
  amount : ℚ
deriving DecidableEq, Repr

/-- The two error responses `book_seats` can raise: HTTP 404 "Show not
found", and HTTP 400 with a message and the alternatives payload. -/
inductive BookError where
  | showNotFound : BookError
  | noSeatsAvailable : String → List AltShow → BookError
deriving DecidableEq, Repr

/-- The database state: one list per table, in insertion (rowid) order. -/
structure DB where
  movies : List Movie
  theaters : List Theater
  halls : List Hall
  shows : List Show
  bookings : List Booking
deriving DecidableEq, Repr

instance exceptDecEq {ε α : Type} [DecidableEq ε] [DecidableEq α] :
    DecidableEq (Except ε α) := fun x y =>
  match x, y with
  | Except.ok a, Except.ok b =>
    if h : a = b then Decidable.isTrue (by rw [h])
    else Decidable.isFalse (fun hc => h (by cases hc; rfl))
  | Except.error a, Except.error b =>
    if h : a = b then Decidable.isTrue (by rw [h])
    else Decidable.isFalse (fun hc => h (by cases hc; rfl))
  | Except.ok _, Except.error _ => Decidable.isFalse (fun hc => Except.noConfusion hc)
  | Except.error _, Except.ok _ => Decidable.isFalse (fun hc => Except.noConfusion hc)

/-- Model of `SELECT * FROM movies WHERE id = ?` (primary-key lookup). -/
def lookupMovie (db : DB) (mid : Nat) : Option Movie :=
  db.movies.find? (fun m => m.id == mid)

/-- Model of `SELECT * FROM theaters WHERE id = ?` (primary-key lookup). -/
def lookupTheater (db : DB) (tid : Nat) : Option Theater :=
  db.theaters.find? (fun t => t.id == tid)

/-- Model of `SELECT * FROM halls WHERE id = ?` (primary-key lookup). -/
def lookupHall (db : DB) (hid : Nat) : Option Hall :=
  db.halls.find? (fun h => h.id == hid)

/-- Python `get_booked_seats(conn, show_id)`: the set of `(row, seat)` pairs over
all bookings of the given show. -/
def get_booked_seats (bookings : List Booking) (sid : Nat) : Finset Seat :=
  ((bookings.filter (fun b => b.show_id == sid)).flatMap (fun b => b.seats)).toFinset

/-- The seat list `[{row, seat} for seat in start..start+size-1]` that the
inner loop of `find_seats` accumulates for one candidate start. -/
def block (row_num start size : Nat) : List Seat :=
  (List.range size).map (fun i => ⟨row_num, start + i⟩)

/-- The `ok` flag of the inner loop of `find_seats`: no seat of the candidate
block is already booked. -/
def blockFree (booked : Finset Seat) (row_num start size : Nat) : Bool :=
  (block row_num start size).all (fun x => !decide (x ∈ booked))

/-- The loop `for start in range(1, total_seats - size + 2)` of
`find_seats`, scanning `count` candidate starts from `start` upward and
returning the first free block. -/
def scanStarts (booked : Finset Seat) (row_num size : Nat) : Nat → Nat → Option (List Seat)
  | _, 0 => none
  | start, count + 1 =>
    if blockFree booked row_num start size then some (block row_num start size)
    else scanStarts booked row_num size (start + 1) count

/-- One iteration of the row loop of `find_seats`: Python's
`range(1, total_seats - size + 2)` has `total_seats - size + 1` elements
(clamped at zero), and for `size <= 0` the block is empty and trivially
free. -/
def findInRow (booked : Finset Seat) (row_num cap : Nat) (size : Int) : Option (List Seat) :=
  scanStarts booked row_num size.toNat 1 ((cap : Int) + 1 - size).toNat

/-- The row loop `for row_idx, total_seats in enumerate(rows)` of
`find_seats`, with `row_num` the 1-based number of the first row of `rows`. -/
def find_seats_aux (booked : Finset Seat) (size : Int) : Nat → List Nat → Option (List Seat)
  | _, [] => none
  | row_num, cap :: rest =>
    match findInRow booked row_num cap size with
    | some seats => some seats
    | none => find_seats_aux booked size (row_num + 1) rest

/-- Python `find_seats(rows, booked, size)`: first-fit search for a contiguous free
block, row-major and leftmost-first; `none` models Python's `None`. -/
def find_seats (rows : List Nat) (booked : Finset Seat) (size : Int) : Option (List Seat) :=
  find_seats_aux booked size 1 rows

/-- Python `booking.show_time.split()[0]`: the first whitespace-separated token of
the show time (blanks restricted to `' '`, the only separator occurring in
the stored time format). -/
def firstTok (s : String) : List Char :=
  (s.toList.dropWhile (fun c => c = ' ')).takeWhile (fun c => c ≠ ' ')

/-- The join and WHERE clause of the query in `find_other_shows`: shows of
the given movie whose time matches `LIKE 'date%'`, each joined with its
movie, hall and theater rows. -/
def candidateShows (db : DB) (movie_id : Nat) (date : List Char) :
    List (Show × Movie × Hall × Theater) :=
  db.shows.filterMap (fun s =>
    match lookupMovie db s.movie_id, lookupHall db s.hall_id with
    | some m, some h =>
      match lookupTheater db h.theater_id with
      | some t =>
        if s.movie_id == movie_id && date.isPrefixOf s.time.toList then
          some (s, m, h, t)
        else none
      | none => none
    | _, _ => none)

/-- Python `find_other_shows(conn, booking)`: re-run the allocator against every
same-movie same-date show and keep the first 3 summaries whose result is
truthy (a non-`None`, non-empty seat list). -/
def find_other_shows (db : DB) (booking : BookingRequest) : List AltShow :=
  let date := firstTok booking.show_time
  let alternatives := (candidateShows db booking.movie_id date).filterMap (fun c =>
    match c with
    | (s, m, h, t) =>
      let booked := get_booked_seats db.bookings s.id
      match find_seats h.rows booked booking.group_size with
      | some seats => if seats.isEmpty then none else some ⟨s.id, m.title, t.name, s.time⟩
      | none => none)
  alternatives.take 3

/-- The per-show body of the `fetchone` query of `book_seats`: the show
joined with its hall, movie and theater, kept when movie, time and theater
all match the request. -/
def matchShow (db : DB) (booking : BookingRequest) (s : Show) :
    Option (Show × Hall × Movie × Theater) :=
  if s.movie_id == booking.movie_id && s.time == booking.show_time then
    match lookupHall db s.hall_id, lookupMovie db s.movie_id with
    | some h, some m =>
      match lookupTheater db h.theater_id with
      | some t => if t.id == booking.theater_id then some (s, h, m, t) else none
      | none => none
    | _, _ => none
  else none

/-- The `fetchone` of `book_seats`: the first show row matching the
requested (movie, time, theater) triple. -/
def findShow (db : DB) (booking : BookingRequest) : Option (Show × Hall × Movie × Theater) :=
  db.shows.findSome? (matchShow db booking)

/-- The HTTP 400 payload of `book_seats` when no block is found. -/
def noSeatsError (db : DB) (booking : BookingRequest) : BookError :=
  BookError.noSeatsAvailable
    ("Cannot book " ++ toString booking.group_size ++ " seats together")
    (find_other_shows db booking)

/-- Python `book_seats(booking)` under the global lock, as one atomic step on the
database state.  `ref` is the externally generated random reference code and
`new_id` the fresh rowid.  Python's `if not seats:` is falsy both for `None`
and for the empty list, hence the two error branches. -/
def book_seats (db : DB) (booking : BookingRequest) (ref : String) (new_id : Nat) :
    Except BookError BookResult × DB :=
  match findShow db booking with
  | none => (Except.error BookError.showNotFound, db)
  | some (s, h, m, t) =>
    let booked := get_booked_seats db.bookings s.id
    match find_seats h.rows booked booking.group_size with
    | none => (Except.error (noSeatsError db booking), db)
    | some [] => (Except.error (noSeatsError db booking), db)
    | some seats =>
      let amount : ℚ := (booking.group_size : ℚ) * m.price
      let bk : Booking := ⟨new_id, s.id, ref, seats, amount, booking.group_size⟩
      (Except.ok ⟨ref, m.title, t.name, s.time, seats, amount⟩,
        { db with bookings := db.bookings ++ [bk] })

/-- One seat object of the layout response of `hall_layout`. -/
structure LayoutSeat where
  seat : Nat
  column : Nat
  booked : Bool
deriving DecidableEq, Repr

/-- One row object of the layout response of `hall_layout`. -/
structure LayoutRow where
  row : Nat
  seats : List LayoutSeat
deriving DecidableEq, Repr

/-- The response of `GET /halls/{hall_id}/layout`. -/
structure HallLayoutResult where
  hall_id : Nat
  layout : List LayoutRow
  booked_count : Nat
deriving DecidableEq, Repr

/-- The seat loop of `hall_layout` for one row:
`for seat_num in range(1, total_seats + 1)` with
`column = (seat_num - 1) // 2 + 1`. -/
def rowSeats (booked : Finset Seat) (row_num cap : Nat) : List LayoutSeat :=
  (List.range' 1 cap).map (fun seat_num =>
    ⟨seat_num, (seat_num - 1) / 2 + 1, decide ((⟨row_num, seat_num⟩ : Seat) ∈ booked)⟩)

/-- The row loop of `hall_layout` over the capacities, numbering rows from
`row_num` upward. -/
def layoutRows (booked : Finset Seat) : Nat → List Nat → List LayoutRow
  | _, [] => []
  | row_num, cap :: rest =>
    ⟨row_num, rowSeats booked row_num cap⟩ :: layoutRows booked (row_num + 1) rest

/-- Python `hall_layout(hall_id, show_id)`: `none` models the HTTP 404 when the
hall does not exist; Python's `if show_id:` is falsy for `None` and for
`0`. -/
def hall_layout (db : DB) (hall_id : Nat) (show_id : Option Nat) : Option HallLayoutResult :=
  match lookupHall db hall_id with
  | none => none
  | some hall =>
    let booked : Finset Seat :=
      match show_id with
      | some sid => if sid == 0 then ∅ else get_booked_seats db.bookings sid
      | none => ∅
    some ⟨hall_id, layoutRows booked 1 hall.rows, booked.card⟩

/-!
## Specification-side predicates
-/

/-- A contiguous block of `size` free seats: row `r` exists with some
capacity `cap`, the block starts at seat `s ≥ 1`, fits inside the row
(`s + size - 1 ≤ cap`), and none of its seats is booked. -/
def ValidBlock (rows : List Nat) (booked : Finset Seat) (size : Int) (r s : Nat) : Prop :=
  1 ≤ r ∧ 1 ≤ s ∧ (∃ cap, rows[r - 1]? = some cap ∧ s + size.toNat ≤ cap + 1) ∧
    ∀ x ∈ block r s size.toNat, x ∉ booked

/-- Two bookings of the same show have disjoint seat lists. -/
def SameShowDisjoint (b1 b2 : Booking) : Prop :=
  b1.show_id = b2.show_id → ∀ x ∈ b1.seats, x ∉ b2.seats

/-- The central invariant: the seat sets of all bookings of each show are
pairwise disjoint. -/
def NoDoubleBooking (bookings : List Booking) : Prop :=
  bookings.Pairwise SameShowDisjoint

/-- A show matches a booking request: same movie id, identical time string,
its movie row exists, and its hall exists and belongs to the requested
theater (whose row also exists) — exactly the join and WHERE clause of the
`fetchone` in `book_seats`. -/
def ShowMatches (db : DB) (booking : BookingRequest) (s : Show) : Prop :=
  s.movie_id = booking.movie_id ∧ s.time = booking.show_time ∧
  (lookupMovie db s.movie_id).isSome = true ∧
  ∃ h, lookupHall db s.hall_id = some h ∧
    ∃ t, lookupTheater db h.theater_id = some t ∧ t.id = booking.theater_id

instance optionExistsAndDec {α : Type} (o : Option α) (p : α → Prop) [DecidablePred p] :
    Decidable (∃ a, o = some a ∧ p a) :=
  match o with
  | none => Decidable.isFalse (by rintro ⟨a, ha, -⟩; cases ha)
  | some a =>
    if h : p a then Decidable.isTrue ⟨a, rfl, h⟩
    else Decidable.isFalse (by rintro ⟨b, hb, hp⟩; cases hb; exact h hp)

instance showMatchesDec (db : DB) (booking : BookingRequest) (s : Show) :
    Decidable (ShowMatches db booking s) := by
  unfold ShowMatches; infer_instance

/-- The condition and summary `find_other_shows` applies to a single show,
fused into one pass: the show qualifies when its joined rows exist, it is a
show of the requested movie on the requested date, and the allocator finds a
truthy (non-empty) block against its booked-seat set. -/
def altSummary (db : DB) (booking : BookingRequest) (s : Show) : Option AltShow :=
  match lookupMovie db s.movie_id, lookupHall db s.hall_id with
  | some m, some h =>
    match lookupTheater db h.theater_id with
    | some t =>
      if s.movie_id == booking.movie_id &&
          (firstTok booking.show_time).isPrefixOf s.time.toList then
        match find_seats h.rows (get_booked_seats db.bookings s.id) booking.group_size with
        | some seats =>
          if seats.isEmpty then none else some ⟨s.id, m.title, t.name, s.time⟩
        | none => none
      else none
    | none => none
  | _, _ => none

/-!
## Concrete fixtures

Small database states mirroring the sample data seeded by `main.py`, used to
evaluate the theorems on concrete inputs.
-/

def exMovie : Movie := ⟨1, "Avengers", 250⟩

def exTheater : Theater := ⟨1, "PVR Mall", "Delhi"⟩

def exHall : Hall := ⟨1, "Hall A", 1, [8, 9, 7]⟩

def exShow : Show := ⟨1, 1, 1, "2024-12-01 14:30"⟩

def exShow2 : Show := ⟨2, 1, 1, "2024-12-01 18:00"⟩

def exDB : DB := ⟨[exMovie], [exTheater], [exHall], [exShow, exShow2], []⟩

def exReq : BookingRequest := ⟨1, "2024-12-01 14:30", 1, 4⟩

def exRes : BookResult :=
  ⟨"AB12CD34", "Avengers", "PVR Mall", "2024-12-01 14:30",
    [⟨1, 1⟩, ⟨1, 2⟩, ⟨1, 3⟩, ⟨1, 4⟩], ((4 : Int) : ℚ) * 250⟩

def exDBafter : DB :=
  { exDB with bookings :=
      [⟨1, 1, "AB12CD34", [⟨1, 1⟩, ⟨1, 2⟩, ⟨1, 3⟩, ⟨1, 4⟩], ((4 : Int) : ℚ) * 250, 4⟩] }

/-- A request with group size `0`, which pydantic does not reject. -/
def req0 : BookingRequest := ⟨1, "2024-12-01 14:30", 1, 0⟩

/-- State whose first show plays in a fully booked single-row hall while a
second show of the same movie and date has a free hall. -/
def fullHallSmall : Hall := ⟨1, "Small Hall", 1, [6]⟩

def fullHallBig : Hall := ⟨2, "Hall A", 1, [8, 9, 7]⟩

def fullShow1 : Show := ⟨1, 1, 1, "2024-12-01 14:30"⟩

def fullShow2 : Show := ⟨2, 1, 2, "2024-12-01 18:00"⟩

def fullDB : DB :=
  ⟨[exMovie], [exTheater], [fullHallSmall, fullHallBig], [fullShow1, fullShow2],
    [⟨1, 1, "FULL0001", [⟨1, 1⟩, ⟨1, 2⟩, ⟨1, 3⟩, ⟨1, 4⟩, ⟨1, 5⟩, ⟨1, 6⟩],
      ((6 : Int) : ℚ) * 250, 6⟩]⟩

def fullReq : BookingRequest := ⟨1, "2024-12-01 14:30", 1, 2⟩

def fullLayoutRes : HallLayoutResult :=
  ⟨1, layoutRows (get_booked_seats fullDB.bookings 1) 1 [6],
    (get_booked_seats fullDB.bookings 1).card⟩

/-!
## Lemmas about the allocator
-/

lemma length_block (r s n : Nat) : (block r s n).length = n := by
  simp [block]

lemma getElem?_block (r s n i : Nat) (hi : i < n) :
    (block r s n)[i]? = some ⟨r, s + i⟩ := by
  simp [block, hi]

lemma mem_block {r s n : Nat} {x : Seat} :
    x ∈ block r s n ↔ ∃ i, i < n ∧ x = ⟨r, s + i⟩ := by
  simp [block, List.mem_map, List.mem_range, eq_comm]

lemma blockFree_iff {booked : Finset Seat} {r s n : Nat} :
    blockFree booked r s n = true ↔ ∀ x ∈ block r s n, x ∉ booked := by
  simp [blockFree, List.all_eq_true]

lemma scanStarts_eq_some {booked : Finset Seat} {rn n : Nat} {seats : List Seat} :
    ∀ {start count : Nat}, scanStarts booked rn n start count = some seats →
      ∃ k, k < count ∧ seats = block rn (start + k) n ∧
        blockFree booked rn (start + k) n = true ∧
        ∀ j, j < k → blockFree booked rn (start + j) n = false := by
  intro start count
  induction count generalizing start with
  | zero => intro h; simp [scanStarts] at h
  | succ c ih =>
    intro h
    rw [scanStarts] at h
    by_cases hb : blockFree booked rn start n = true
    · rw [if_pos hb] at h
      refine ⟨0, Nat.succ_pos c, ?_, ?_, ?_⟩
      · simpa using (Option.some.inj h).symm
      · simp only [Nat.add_zero]; exact hb
      · intro j hj; omega
    · rw [if_neg hb] at h
      obtain ⟨k, hk, hs, hf, hprev⟩ := ih h
      have harith : start + 1 + k = start + (k + 1) := by omega
      refine ⟨k + 1, by omega, by rw [← harith]; exact hs, by rw [← harith]; exact hf, ?_⟩
      intro j hj
      cases j with
      | zero => simpa using Bool.not_eq_true _ ▸ (Bool.eq_false_iff.mpr hb)
      | succ j' =>
        have : start + 1 + j' = start + (j' + 1) := by omega
        exact this ▸ hprev j' (by omega)

lemma scanStarts_eq_none {booked : Finset Seat} {rn n : Nat} :
    ∀ {start count : Nat}, scanStarts booked rn n start count = none ↔
      ∀ k, k < count → blockFree booked rn (start + k) n = false := by
  intro start count
  induction count generalizing start with
  | zero => simp [scanStarts]
  | succ c ih =>
    rw [scanStarts]
    by_cases hb : blockFree booked rn start n = true
    · rw [if_pos hb]
      simp only [reduceCtorEq, false_iff, not_forall]
      exact ⟨0, by omega, by simp [hb]⟩
    · rw [if_neg hb, ih]
      constructor
      · intro hall k hk
        cases k with
        | zero => simpa using Bool.eq_false_iff.mpr hb
        | succ k' =>
          have : start + (k' + 1) = start + 1 + k' := by omega
          rw [this]; exact hall k' (by omega)
      · intro hall k hk
        have : start + 1 + k = start + (k + 1) := by omega
        rw [this]; exact hall (k + 1) (by omega)

lemma findInRow_count {cap : Nat} {size : Int} (hsz : 1 ≤ size) :
    ((cap : Int) + 1 - size).toNat = cap + 1 - size.toNat := by omega

lemma find_seats_aux_eq_some {booked : Finset Seat} {size : Int} {seats : List Seat} :
    ∀ {rn : Nat} {rows : List Nat}, find_seats_aux booked size rn rows = some seats →
      ∃ i cap, rows[i]? = some cap ∧ findInRow booked (rn + i) cap size = some seats ∧
        ∀ j capj, j < i → rows[j]? = some capj →
          findInRow booked (rn + j) capj size = none := by
  intro rn rows
  induction rows generalizing rn with
  | nil => intro h; simp [find_seats_aux] at h
  | cons cap rest ih =>
    intro h
    rw [find_seats_aux] at h
    cases hr : findInRow booked rn cap size with
    | some s0 =>
      rw [hr] at h
      refine ⟨0, cap, by simp, ?_, ?_⟩
      · rw [Nat.add_zero, hr]; exact congrArg some (Option.some.inj h)
      · intro j capj hj; omega
    | none =>
      rw [hr] at h
      obtain ⟨i, capi, hgi, hfi, hprev⟩ := ih h
      have harith : rn + 1 + i = rn + (i + 1) := by omega
      refine ⟨i + 1, capi, by simpa using hgi, by rw [← harith]; exact hfi, ?_⟩
      intro j capj hj hgj
      cases j with
      | zero =>
        simp only [List.getElem?_cons_zero, Option.some.injEq] at hgj
        rw [Nat.add_zero, ← hgj]; exact hr
      | succ j' =>
        have : rn + (j' + 1) = rn + 1 + j' := by omega
        rw [this]
        exact hprev j' capj (by omega) (by simpa using hgj)

lemma find_seats_aux_eq_none {booked : Finset Seat} {size : Int} :
    ∀ {rn : Nat} {rows : List Nat}, find_seats_aux booked size rn rows = none ↔
      ∀ i cap, rows[i]? = some cap → findInRow booked (rn + i) cap size = none := by
  intro rn rows
  induction rows generalizing rn with
  | nil => simp [find_seats_aux]
  | cons cap rest ih =>
    rw [find_seats_aux]
    cases hr : findInRow booked rn cap size with
    | some s0 =>
      simp only [reduceCtorEq, false_iff, not_forall]
      exact ⟨0, cap, by simp, by rw [Nat.add_zero, hr]; simp⟩
    | none =>
      rw [ih]
      constructor
      · intro hall i capi hgi
        cases i with
        | zero =>
          simp only [List.getElem?_cons_zero, Option.some.injEq] at hgi
          rw [Nat.add_zero, ← hgi]; exact hr
        | succ i' =>
          have : rn + (i' + 1) = rn + 1 + i' := by omega
          rw [this]; exact hall i' capi (by simpa using hgi)
      · intro hall i capi hgi
        have : rn + 1 + i = rn + (i + 1) := by omega
        rw [this]; exact hall (i + 1) capi (by simpa using hgi)

lemma find_seats_eq_some_spec {rows : List Nat} {booked : Finset Seat} {size : Int}
    {seats : List Seat} (hsz : 1 ≤ size) (h : find_seats rows booked size = some seats) :
    ∃ r s, seats = block r s size.toNat ∧ ValidBlock rows booked size r s ∧
      ∀ r' s', ValidBlock rows booked size r' s' → r < r' ∨ (r = r' ∧ s ≤ s') := by
  rw [find_seats] at h
  obtain ⟨i, cap, hgi, hfi, hrows⟩ := find_seats_aux_eq_some h
  rw [findInRow, findInRow_count hsz] at hfi
  obtain ⟨k, hk, hs, hf, hstarts⟩ := scanStarts_eq_some hfi
  refine ⟨1 + i, 1 + k, hs, ?_, ?_⟩
  · exact ⟨by omega, by omega, ⟨cap, by simpa using hgi, by omega⟩, blockFree_iff.mp hf⟩
  · rintro r' s' ⟨hr1, hs1, ⟨cap', hgc', hfit⟩, hfree⟩
    by_contra hcon
    push_neg at hcon
    obtain ⟨hle, himp⟩ := hcon
    have hfree' : blockFree booked r' s' size.toNat = true := blockFree_iff.mpr hfree
    rcases Nat.lt_or_ge r' (1 + i) with hlt | hge
    · have hnone := hrows (r' - 1) cap' (by omega) hgc'
      rw [findInRow, findInRow_count hsz, scanStarts_eq_none] at hnone
      have hb := hnone (s' - 1) (by omega)
      have e1 : 1 + (r' - 1) = r' := by omega
      have e2 : 1 + (s' - 1) = s' := by omega
      rw [e1, e2] at hb
      rw [hfree'] at hb
      exact Bool.true_eq_false.mp hb
    · have heq : r' = 1 + i := by omega
      have hlt' : s' < 1 + k := by
        have := himp heq.symm
        omega
      have hb := hstarts (s' - 1) (by omega)
      have e1 : 1 + (s' - 1) = s' := by omega
      rw [e1, heq.symm] at hb
      rw [hfree'] at hb
      exact Bool.true_eq_false.mp hb

lemma find_seats_eq_none_spec {rows : List Nat} {booked : Finset Seat} {size : Int}
    (hsz : 1 ≤ size) (h : find_seats rows booked size = none) :
    ∀ r s, ¬ ValidBlock rows booked size r s := by
  rintro r s ⟨hr1, hs1, ⟨cap, hgc, hfit⟩, hfree⟩
  rw [find_seats, find_seats_aux_eq_none] at h
  have hnone := h (r - 1) cap hgc
  rw [findInRow, findInRow_count hsz, scanStarts_eq_none] at hnone
  have hb := hnone (s - 1) (by omega)
  have e1 : 1 + (r - 1) = r := by omega
  have e2 : 1 + (s - 1) = s := by omega
  rw [e1, e2, blockFree_iff.mpr hfree] at hb
  exact Bool.true_eq_false.mp hb

lemma find_seats_some_unbooked {rows : List Nat} {booked : Finset Seat} {size : Int}
    {seats : List Seat} (h : find_seats rows booked size = some seats) :
    ∀ x ∈ seats, x ∉ booked := by
  rw [find_seats] at h
  obtain ⟨i, cap, -, hfi, -⟩ := find_seats_aux_eq_some h
  rw [findInRow] at hfi
  obtain ⟨k, -, hs, hf, -⟩ := scanStarts_eq_some hfi
  rw [hs]
  exact blockFree_iff.mp hf

lemma findInRow_oversized {booked : Finset Seat} {rn cap : Nat} {size : Int}
    (h : (cap : Int) < size) : findInRow booked rn cap size = none := by
  rw [findInRow]
  have hc : ((cap : Int) + 1 - size).toNat = 0 := by omega
  rw [hc, scanStarts]

lemma find_seats_oversized_none {rows : List Nat} {booked : Finset Seat} {size : Int}
    (h : ∀ cap ∈ rows, (cap : Int) < size) : find_seats rows booked size = none := by
  rw [find_seats, find_seats_aux_eq_none]
  intro i cap hgc
  exact findInRow_oversized (h cap (List.getElem?_mem hgc))

lemma find_seats_nonpos {rows : List Nat} {booked : Finset Seat} {size : Int}
    (hsz : size ≤ 0) :
    find_seats rows booked size = none ∨ find_seats rows booked size = some [] := by
  cases rows with
  | nil => left; rfl
  | cons cap rest =>
    right
    have hn : size.toNat = 0 := by omega
    obtain ⟨c, hc⟩ : ∃ c, ((cap : Int) + 1 - size).toNat = c + 1 :=
      ⟨((cap : Int) - size).toNat, by omega⟩
    have hfir : findInRow booked 1 cap size = some [] := by
      rw [findInRow, hn, hc, scanStarts]
      have hbf : blockFree booked 1 1 0 = true := by simp [blockFree, block]
      rw [if_pos hbf]
      simp [block]
    rw [find_seats, find_seats_aux, hfir]

/-!
## Lemmas about booked-seat sets, show lookup and `book_seats`
-/

lemma mem_get_booked_seats {bookings : List Booking} {sid : Nat} {x : Seat} :
    x ∈ get_booked_seats bookings sid ↔
      ∃ b ∈ bookings, b.show_id = sid ∧ x ∈ b.seats := by
  simp only [get_booked_seats, List.mem_toFinset, List.mem_flatMap, List.mem_filter,
    beq_iff_eq]
  constructor
  · rintro ⟨b, ⟨hb, hs⟩, hx⟩
    exact ⟨b, hb, hs, hx⟩
  · rintro ⟨b, hb, hs, hx⟩
    exact ⟨b, ⟨hb, hs⟩, hx⟩

lemma matchShow_eq_some {db : DB} {booking : BookingRequest} {x s : Show} {h : Hall}
    {m : Movie} {t : Theater} (hm : matchShow db booking x = some (s, h, m, t)) :
    x = s ∧ s.movie_id = booking.movie_id ∧ s.time = booking.show_time ∧
      lookupHall db s.hall_id = some h ∧ lookupMovie db s.movie_id = some m ∧
      lookupTheater db h.theater_id = some t ∧ t.id = booking.theater_id := by
  unfold matchShow at hm
  split at hm
  case isFalse => cases hm
  case isTrue hcond =>
    rw [Bool.and_eq_true, beq_iff_eq, beq_iff_eq] at hcond
    split at hm
    case h_2 => cases hm
    case h_1 h0 m0 hH hM =>
      split at hm
      case h_2 => cases hm
      case h_1 t0 hT =>
        split at hm
        case isFalse => cases hm
        case isTrue hid =>
          rw [beq_iff_eq] at hid
          obtain ⟨hx, hh, hm', ht⟩ :
              x = s ∧ h0 = h ∧ m0 = m ∧ t0 = t := by
            have := Option.some.inj hm
            exact ⟨congrArg Prod.fst this, congrArg (fun p => p.2.1) this,
              congrArg (fun p => p.2.2.1) this, congrArg (fun p => p.2.2.2) this⟩
          subst hx hh hm' ht
          exact ⟨rfl, hcond.1, hcond.2, hH, hM, hT, hid⟩

lemma matchShow_eq_none_iff {db : DB} {booking : BookingRequest} {s : Show} :
    matchShow db booking s = none ↔ ¬ ShowMatches db booking s := by
  constructor
  · intro hm hsm
    obtain ⟨h1, h2, h3, hh, hhh, ht, hht, htid⟩ := hsm
    obtain ⟨m, hM⟩ := Option.isSome_iff_exists.mp h3
    have hM' : lookupMovie db booking.movie_id = some m := h1 ▸ hM
    simp only [matchShow, h1, h2, hhh, hM', hht, htid, beq_self_eq_true, Bool.and_self,
      if_true, reduceCtorEq] at hm
  · intro hns
    cases hm : matchShow db booking s with
    | none => rfl
    | some q =>
      obtain ⟨s', h', m', t'⟩ := q
      obtain ⟨hx, h1, h2, hh, hM, hT, htid⟩ := matchShow_eq_some hm
      subst hx
      exact absurd ⟨h1, h2, by rw [hM]; rfl, h', hh, t', hT, htid⟩ hns

lemma findShow_eq_none_iff {db : DB} {booking : BookingRequest} :
    findShow db booking = none ↔ ¬ ∃ s ∈ db.shows, ShowMatches db booking s := by
  rw [findShow, List.findSome?_eq_none_iff]
  constructor
  · rintro hall ⟨s, hs, hsm⟩
    exact matchShow_eq_none_iff.mp (hall s hs) hsm
  · intro hne s hs
    rw [matchShow_eq_none_iff]
    exact fun hsm => hne ⟨s, hs, hsm⟩

lemma findShow_eq_some {db : DB} {booking : BookingRequest} {s : Show} {h : Hall}
    {m : Movie} {t : Theater} (hf : findShow db booking = some (s, h, m, t)) :
    s ∈ db.shows ∧ s.movie_id = booking.movie_id ∧ s.time = booking.show_time ∧
      lookupHall db s.hall_id = some h ∧ lookupMovie db s.movie_id = some m ∧
      lookupTheater db h.theater_id = some t ∧ t.id = booking.theater_id := by
  obtain ⟨x, hx, hm⟩ := List.exists_of_findSome?_eq_some hf
  obtain ⟨hxs, rest⟩ := matchShow_eq_some hm
  subst hxs
  exact ⟨hx, rest⟩

lemma book_seats_ok_inv {db : DB} {booking : BookingRequest} {ref : String} {nid : Nat}
    {res : BookResult} {db' : DB}
    (hok : book_seats db booking ref nid = (Except.ok res, db')) :
    ∃ s h m t seats, findShow db booking = some (s, h, m, t) ∧
      find_seats h.rows (get_booked_seats db.bookings s.id) booking.group_size
        = some seats ∧ seats ≠ [] ∧
      res = ⟨ref, m.title, t.name, s.time, seats, (booking.group_size : ℚ) * m.price⟩ ∧
      db' = { db with bookings := db.bookings ++
        [⟨nid, s.id, ref, seats, (booking.group_size : ℚ) * m.price, booking.group_size⟩] } := by
  unfold book_seats at hok
  cases hfind : findShow db booking with
  | none => rw [hfind] at hok; simp at hok
  | some q =>
    obtain ⟨s, h, m, t⟩ := q
    rw [hfind] at hok
    dsimp only at hok
    cases hfs : find_seats h.rows (get_booked_seats db.bookings s.id) booking.group_size with
    | none => rw [hfs] at hok; simp at hok
    | some seats =>
      rw [hfs] at hok
      cases seats with
      | nil => simp at hok
      | cons x xs =>
        dsimp only at hok
        have h1 := congrArg Prod.fst hok
        have h2 := congrArg Prod.snd hok
        dsimp only at h1 h2
        exact ⟨s, h, m, t, x :: xs, rfl, hfs, List.cons_ne_nil x xs,
          (Except.ok.inj h1).symm, h2.symm⟩

/-- On every error path `book_seats` leaves the database unchanged. -/
lemma book_seats_error_state {db : DB} {booking : BookingRequest} {ref : String}
    {nid : Nat} {e : BookError}
    (he : (book_seats db booking ref nid).1 = Except.error e) :
    (book_seats db booking ref nid).2 = db := by
  unfold book_seats at he ⊢
  cases hfind : findShow db booking with
  | none => rfl
  | some q =>
    obtain ⟨s, h, m, t⟩ := q
    rw [hfind] at he
    dsimp only at he ⊢
    cases hfs : find_seats h.rows (get_booked_seats db.bookings s.id) booking.group_size with
    | none => rfl
    | some seats =>
      rw [hfs] at he
      cases seats with
      | nil => rfl
      | cons x xs => simp at he

/-- The call `book_seats` answers `showNotFound` exactly when the show query is empty. -/
lemma book_seats_notFound_iff {db : DB} {booking : BookingRequest} {ref : String}
    {nid : Nat} :
    (book_seats db booking ref nid).1 = Except.error BookError.showNotFound ↔
      findShow db booking = none := by
  unfold book_seats
  cases hfind : findShow db booking with
  | none => simp
  | some q =>
    obtain ⟨s, h, m, t⟩ := q
    dsimp only
    cases hfs : find_seats h.rows (get_booked_seats db.bookings s.id) booking.group_size with
    | none => simp [noSeatsError]
    | some seats =>
      cases seats with
      | nil => simp [noSeatsError]
      | cons x xs => simp

/-- Inversion of a `noSeatsAvailable` failure of `book_seats`. -/
lemma book_seats_noSeats_inv {db : DB} {booking : BookingRequest} {ref : String}
    {nid : Nat} {msg : String} {alts : List AltShow}
    (he : (book_seats db booking ref nid).1 =
      Except.error (BookError.noSeatsAvailable msg alts)) :
    ∃ s h m t, findShow db booking = some (s, h, m, t) ∧
      (find_seats h.rows (get_booked_seats db.bookings s.id) booking.group_size = none ∨
       find_seats h.rows (get_booked_seats db.bookings s.id) booking.group_size
         = some []) ∧
      msg = "Cannot book " ++ toString booking.group_size ++ " seats together" ∧
      alts = find_other_shows db booking := by
  unfold book_seats at he
  cases hfind : findShow db booking with
  | none => rw [hfind] at he; simp at he
  | some q =>
    obtain ⟨s, h, m, t⟩ := q
    rw [hfind] at he
    dsimp only at he
    cases hfs : find_seats h.rows (get_booked_seats db.bookings s.id) booking.group_size with
    | none =>
      rw [hfs] at he
      dsimp only at he
      have hinj := Except.error.inj he
      unfold noSeatsError at hinj
      injection hinj with hm ha
      exact ⟨s, h, m, t, rfl, Or.inl hfs, hm.symm, ha.symm⟩
    | some seats =>
      rw [hfs] at he
      cases seats with
      | nil =>
        dsimp only at he
        have hinj := Except.error.inj he
        unfold noSeatsError at hinj
        injection hinj with hm ha
        exact ⟨s, h, m, t, rfl, Or.inr hfs, hm.symm, ha.symm⟩
      | cons x xs => simp at he

/-!
## Lemmas about the Alternative Finder
-/

lemma find_other_shows_eq (db : DB) (booking : BookingRequest) :
    find_other_shows db booking = (db.shows.filterMap (altSummary db booking)).take 3 := by
  unfold find_other_shows candidateShows
  dsimp only
  rw [List.filterMap_filterMap]
  refine congrArg (List.take 3) (congrArg (fun f => List.filterMap f db.shows) ?_)
  funext s
  cases hM : lookupMovie db s.movie_id with
  | none => simp [altSummary, hM]
  | some m =>
    cases hH : lookupHall db s.hall_id with
    | none => simp [altSummary, hM, hH]
    | some h =>
      cases hT : lookupTheater db h.theater_id with
      | none => simp [altSummary, hM, hH, hT]
      | some t =>
        by_cases hc : (s.movie_id == booking.movie_id &&
            (firstTok booking.show_time).isPrefixOf s.time.toList) = true
        · simp only [altSummary, hM, hH, hT, hc, if_true, Option.some_bind]
        · simp only [altSummary, hM, hH, hT, hc, if_false, Bool.false_eq_true,
            Option.none_bind]

lemma altSummary_eq_some {db : DB} {booking : BookingRequest} {s : Show} {a : AltShow}
    (ha : altSummary db booking s = some a) :
    a.show_id = s.id ∧ s.movie_id = booking.movie_id ∧
      (firstTok booking.show_time).isPrefixOf s.time.toList = true ∧
      ∃ hl, lookupHall db s.hall_id = some hl ∧
        ∃ seats, find_seats hl.rows (get_booked_seats db.bookings s.id) booking.group_size
            = some seats ∧ seats ≠ [] := by
  unfold altSummary at ha
  cases hM : lookupMovie db s.movie_id with
  | none => rw [hM] at ha; cases ha
  | some m =>
    rw [hM] at ha
    cases hH : lookupHall db s.hall_id with
    | none => rw [hH] at ha; cases ha
    | some h =>
      rw [hH] at ha
      dsimp only at ha
      cases hT : lookupTheater db h.theater_id with
      | none => rw [hT] at ha; cases ha
      | some t =>
        rw [hT] at ha
        dsimp only at ha
        by_cases hc : (s.movie_id == booking.movie_id &&
            (firstTok booking.show_time).isPrefixOf s.time.toList) = true
        · rw [if_pos hc] at ha
          rw [Bool.and_eq_true, beq_iff_eq] at hc
          cases hfs : find_seats h.rows (get_booked_seats db.bookings s.id)
              booking.group_size with
          | none => rw [hfs] at ha; cases ha
          | some seats =>
            rw [hfs] at ha
            dsimp only at ha
            cases seats with
            | nil => simp at ha
            | cons x xs =>
              rw [if_neg (by simp)] at ha
              have := (Option.some.inj ha).symm
              subst this
              exact ⟨rfl, hc.1, hc.2, h, rfl, x :: xs, hfs, List.cons_ne_nil x xs⟩
        · rw [if_neg hc] at ha; cases ha

lemma mem_find_other_shows {db : DB} {booking : BookingRequest} {a : AltShow}
    (ha : a ∈ find_other_shows db booking) :
    ∃ s ∈ db.shows, altSummary db booking s = some a := by
  rw [find_other_shows_eq] at ha
  exact List.mem_filterMap.mp (List.mem_of_mem_take ha)

/-- In a list of shows with pairwise distinct ids (the primary-key property
of the `shows` table), two members with the same id are the same row. -/
lemma eq_of_pairwise_ne_id {l : List Show} (hp : l.Pairwise (fun a b => a.id ≠ b.id))
    {x y : Show} (hx : x ∈ l) (hy : y ∈ l) (hid : x.id = y.id) : x = y := by
  induction l with
  | nil => cases hx
  | cons z rest ih =>
    rcases List.mem_cons.mp hx with rfl | hx'
    · rcases List.mem_cons.mp hy with rfl | hy'
      · rfl
      · exact absurd hid ((List.pairwise_cons.mp hp).1 y hy')
    · rcases List.mem_cons.mp hy with rfl | hy'
      · exact absurd hid.symm ((List.pairwise_cons.mp hp).1 x hx')
      · exact ih (List.pairwise_cons.mp hp).2 hx' hy'

/-!
## Lemmas about `hall_layout`
-/

lemma rowSeats_length (booked : Finset Seat) (rn cap : Nat) :
    (rowSeats booked rn cap).length = cap := by
  simp [rowSeats]

lemma rowSeats_getElem? (booked : Finset Seat) (rn cap j : Nat) (hj : j < cap) :
    (rowSeats booked rn cap)[j]? = some ⟨j + 1, j / 2 + 1,
      decide ((⟨rn, j + 1⟩ : Seat) ∈ booked)⟩ := by
  unfold rowSeats
  rw [List.getElem?_map, List.getElem?_range' _ _ hj]
  have e1 : 1 + 1 * j = j + 1 := by omega
  rw [e1, Option.map_some']
  have e2 : j + 1 - 1 = j := by omega
  rw [e2]

lemma layoutRows_length (booked : Finset Seat) :
    ∀ (rn : Nat) (rows : List Nat), (layoutRows booked rn rows).length = rows.length := by
  intro rn rows
  induction rows generalizing rn with
  | nil => rfl
  | cons cap rest ih => simp [layoutRows, ih]

lemma layoutRows_getElem? (booked : Finset Seat) :
    ∀ {rn : Nat} {rows : List Nat} {i cap : Nat}, rows[i]? = some cap →
      (layoutRows booked rn rows)[i]? = some ⟨rn + i, rowSeats booked (rn + i) cap⟩ := by
  intro rn rows
  induction rows generalizing rn with
  | nil => intro i cap h; simp at h
  | cons cap0 rest ih =>
    intro i cap h
    cases i with
    | zero =>
      simp only [List.getElem?_cons_zero, Option.some.injEq] at h
      subst h
      simp [layoutRows]
    | succ i' =>
      rw [List.getElem?_cons_succ] at h
      rw [layoutRows, List.getElem?_cons_succ]
      have e : rn + (i' + 1) = rn + 1 + i' := by omega
      rw [e]
      exact ih h

/-!
## Claim theorems
-/

/-- Claim C2: for every row-capacity sequence, booked-seat set and group
size ≥ 1, `find_seats` returns the first valid contiguous block in
row-major, leftmost-first order — the valid block whose (row, starting
seat) pair is lexicographically smallest — and it returns `None` only when
no valid block exists; in particular rows `[8, 9, 7]`, empty booked set and
size 3 give seats `(1,1),(1,2),(1,3)`. -/
theorem find_seats_first_fit_deterministic
    (rows : List Nat) (booked : Finset Seat) (size : Int) (hsz : 1 ≤ size) :
    (∀ seats, find_seats rows booked size = some seats →
      ∃ r s, seats = block r s size.toNat ∧ ValidBlock rows booked size r s ∧
        ∀ r' s', ValidBlock rows booked size r' s' → r < r' ∨ (r = r' ∧ s ≤ s')) ∧
    (find_seats rows booked size = none →
      ∀ r s, ¬ ValidBlock rows booked size r s) ∧
    find_seats [8, 9, 7] ∅ 3 = some [⟨1, 1⟩, ⟨1, 2⟩, ⟨1, 3⟩] :=
  ⟨fun _ h => find_seats_eq_some_spec hsz h,
   fun h => find_seats_eq_none_spec hsz h,
   by decide⟩

theorem find_seats_first_fit_deterministic_witness :
    find_seats [8, 9, 7] ∅ 3 = some [⟨1, 1⟩, ⟨1, 2⟩, ⟨1, 3⟩] :=
  (find_seats_first_fit_deterministic [8, 9, 7] ∅ 3 (by decide)).2.2

/-- Claim C3: for every group size ≥ 1, a block returned by `find_seats`
has exactly `size` seats, all in one existing row `r`, at consecutive seat
numbers `s, s+1, …, s+size-1` with `s ≥ 1` and `s+size-1` within the row
capacity, and none of its seats is in the booked set. -/
theorem find_seats_contiguity
    (rows : List Nat) (booked : Finset Seat) (size : Int) (seats : List Seat)
    (hsz : 1 ≤ size) (h : find_seats rows booked size = some seats) :
    ∃ r s cap, 1 ≤ r ∧ rows[r - 1]? = some cap ∧ 1 ≤ s ∧
      seats.length = size.toNat ∧
      (∀ i, i < size.toNat → seats[i]? = some ⟨r, s + i⟩) ∧
      s + size.toNat ≤ cap + 1 ∧
      ∀ x ∈ seats, x ∉ booked := by
  obtain ⟨r, s, hseats, ⟨hr1, hs1, ⟨cap, hcap, hfit⟩, hfree⟩, -⟩ :=
    find_seats_eq_some_spec hsz h
  refine ⟨r, s, cap, hr1, hcap, hs1, ?_, ?_, hfit, ?_⟩
  · rw [hseats]; exact length_block r s _
  · intro i hi; rw [hseats]; exact getElem?_block r s _ i hi
  · rw [hseats]; exact hfree

theorem find_seats_contiguity_witness :
    ∃ r s cap, 1 ≤ r ∧ ([8, 9, 7] : List Nat)[r - 1]? = some cap ∧ 1 ≤ s ∧
      ([⟨1, 1⟩, ⟨1, 2⟩, ⟨1, 3⟩] : List Seat).length = (3 : Int).toNat ∧
      (∀ i, i < (3 : Int).toNat →
        ([⟨1, 1⟩, ⟨1, 2⟩, ⟨1, 3⟩] : List Seat)[i]? = some ⟨r, s + i⟩) ∧
      s + (3 : Int).toNat ≤ cap + 1 ∧
      ∀ x ∈ ([⟨1, 1⟩, ⟨1, 2⟩, ⟨1, 3⟩] : List Seat), x ∉ (∅ : Finset Seat) :=
  find_seats_contiguity [8, 9, 7] ∅ 3 [⟨1, 1⟩, ⟨1, 2⟩, ⟨1, 3⟩] (by decide) (by decide)

/-- Claim C6: if the requested size exceeds every row capacity then
`find_seats` reports "not found" (no cross-row splitting), and on rows
`[6]` with all six seats booked even size 1 reports "not found". -/
theorem find_seats_oversized_not_found
    (rows : List Nat) (booked : Finset Seat) (size : Int)
    (h : ∀ cap ∈ rows, (cap : Int) < size) :
    find_seats rows booked size = none ∧
    find_seats [6] {⟨1, 1⟩, ⟨1, 2⟩, ⟨1, 3⟩, ⟨1, 4⟩, ⟨1, 5⟩, ⟨1, 6⟩} 1 = none :=
  ⟨find_seats_oversized_none h, by decide⟩

theorem find_seats_oversized_not_found_witness :
    find_seats [8, 9, 7] ∅ 10 = none ∧
    find_seats [6] {⟨1, 1⟩, ⟨1, 2⟩, ⟨1, 3⟩, ⟨1, 4⟩, ⟨1, 5⟩, ⟨1, 6⟩} 1 = none :=
  find_seats_oversized_not_found [8, 9, 7] ∅ 10 (by decide)

/-- Claim C1: starting from any state in which the seat sets of all
bookings of each show are pairwise disjoint, a successful `book_seats` call
preserves the invariant: it appends exactly one booking whose seats are
disjoint from the seats of every existing booking of the same show. -/
theorem book_preserves_no_double_booking
    (db : DB) (booking : BookingRequest) (ref : String) (nid : Nat)
    (res : BookResult) (db' : DB)
    (hinv : NoDoubleBooking db.bookings)
    (hok : book_seats db booking ref nid = (Except.ok res, db')) :
    NoDoubleBooking db'.bookings ∧
    ∃ bk, db'.bookings = db.bookings ++ [bk] ∧
      ∀ b ∈ db.bookings, b.show_id = bk.show_id → ∀ x ∈ bk.seats, x ∉ b.seats := by
  obtain ⟨s, h, m, t, seats, hfind, hfs, hne, hres, hdb⟩ := book_seats_ok_inv hok
  subst hdb
  have hnb : ∀ x ∈ seats, x ∉ get_booked_seats db.bookings s.id :=
    find_seats_some_unbooked hfs
  have hdisj : ∀ b ∈ db.bookings, b.show_id = s.id → ∀ x ∈ seats, x ∉ b.seats := by
    intro b hb hshow x hx hxb
    exact hnb x hx (mem_get_booked_seats.mpr ⟨b, hb, hshow, hxb⟩)
  constructor
  · rw [NoDoubleBooking] at hinv ⊢
    dsimp only
    rw [List.pairwise_append]
    refine ⟨hinv, List.pairwise_singleton _ _, ?_⟩
    intro b hb bk hbk
    rw [List.mem_singleton] at hbk
    subst hbk
    intro hshow x hxb hxbk
    exact hdisj b hb hshow x hxbk hxb
  · exact ⟨_, rfl, fun b hb hshow x hx => hdisj b hb hshow x hx⟩

theorem book_preserves_no_double_booking_witness :
    NoDoubleBooking exDBafter.bookings ∧
    ∃ bk, exDBafter.bookings = exDB.bookings ++ [bk] ∧
      ∀ b ∈ exDB.bookings, b.show_id = bk.show_id → ∀ x ∈ bk.seats, x ∉ b.seats :=
  book_preserves_no_double_booking exDB exReq "AB12CD34" 1 exRes exDBafter
    List.Pairwise.nil rfl

/-- Claim C4: `book_seats` fails with `showNotFound` exactly when no show
matches the requested (movie, theater, time) triple, and on every failing
path the database — hence every booking record and every show's booked-seat
state — is unchanged. -/
theorem book_show_not_found_and_atomic_failure
    (db : DB) (booking : BookingRequest) (ref : String) (nid : Nat) :
    ((book_seats db booking ref nid).1 = Except.error BookError.showNotFound ↔
      ¬ ∃ s ∈ db.shows, ShowMatches db booking s) ∧
    ∀ e, (book_seats db booking ref nid).1 = Except.error e →
      (book_seats db booking ref nid).2 = db :=
  ⟨book_seats_notFound_iff.trans findShow_eq_none_iff,
   fun _ he => book_seats_error_state he⟩

theorem book_show_not_found_and_atomic_failure_witness :
    (book_seats exDB ⟨1, "2024-12-01 99:99", 1, 4⟩ "AB12CD34" 1).1 =
      Except.error BookError.showNotFound ∧
    (book_seats exDB ⟨1, "2024-12-01 99:99", 1, 4⟩ "AB12CD34" 1).2 = exDB := by
  have h := book_show_not_found_and_atomic_failure exDB ⟨1, "2024-12-01 99:99", 1, 4⟩
    "AB12CD34" 1
  have h1 := h.1.mpr (by decide)
  exact ⟨h1, h.2 _ h1⟩

/-- Claim C5: `find_other_shows` returns at most 3 summaries; a summary is
included only for a show of the requested movie whose time starts with the
request's date and on which the allocator finds a (truthy) block for the
requested group size; and the result is the first 3 entries of the
scan-order list of qualifying shows. -/
theorem find_other_shows_contract (db : DB) (booking : BookingRequest) :
    find_other_shows db booking = (db.shows.filterMap (altSummary db booking)).take 3 ∧
    (find_other_shows db booking).length ≤ 3 ∧
    ∀ a ∈ find_other_shows db booking, ∃ s ∈ db.shows, a.show_id = s.id ∧
      s.movie_id = booking.movie_id ∧
      (firstTok booking.show_time).isPrefixOf s.time.toList = true ∧
      ∃ hl, lookupHall db s.hall_id = some hl ∧
        ∃ seats, find_seats hl.rows (get_booked_seats db.bookings s.id)
            booking.group_size = some seats ∧ seats ≠ [] := by
  refine ⟨find_other_shows_eq db booking, ?_, ?_⟩
  · rw [find_other_shows_eq]
    exact List.length_take_le 3 _
  · intro a ha
    obtain ⟨s, hs, hsum⟩ := mem_find_other_shows ha
    obtain ⟨h1, h2, h3, hl, hh, seats, hfs, hne⟩ := altSummary_eq_some hsum
    exact ⟨s, hs, h1, h2, h3, hl, hh, seats, hfs, hne⟩

theorem find_other_shows_contract_witness :
    (find_other_shows fullDB fullReq).length ≤ 3 ∧
    find_other_shows fullDB fullReq =
      [⟨2, "Avengers", "PVR Mall", "2024-12-01 18:00"⟩] :=
  ⟨(find_other_shows_contract fullDB fullReq).2.1, by decide⟩

/-- Claim C7, counterexample: a booking request with group size 0 is not
rejected before the core path runs — `book_seats` resolves the show, runs
the allocator, and fails with the `noSeatsAvailable` (HTTP 400) error, not
with any input-validation error. -/
theorem book_nonpositive_size_counterexample :
    req0.group_size ≤ 0 ∧
    (book_seats exDB req0 "AB12CD34" 1).1 =
      Except.error (BookError.noSeatsAvailable "Cannot book 0 seats together" []) :=
  ⟨by decide, by decide⟩

/-- Claim C7, amended: `book_seats` performs no group-size validation; for
any request with group size ≤ 0 whose show resolves, the allocator's result
is falsy (the empty block), so the call fails with `noSeatsAvailable` and
leaves the state unchanged — it is never rejected as an input error. -/
theorem book_nonpositive_size_fails_no_seats
    (db : DB) (booking : BookingRequest) (ref : String) (nid : Nat)
    (s : Show) (h : Hall) (m : Movie) (t : Theater)
    (hsz : booking.group_size ≤ 0)
    (hfind : findShow db booking = some (s, h, m, t)) :
    ∃ msg alts, (book_seats db booking ref nid).1 =
        Except.error (BookError.noSeatsAvailable msg alts) ∧
      (book_seats db booking ref nid).2 = db := by
  have hcase := @find_seats_nonpos h.rows (get_booked_seats db.bookings s.id)
    booking.group_size hsz
  have h1 : (book_seats db booking ref nid).1 = Except.error (noSeatsError db booking) := by
    unfold book_seats
    rw [hfind]
    dsimp only
    rcases hcase with hn | he
    · rw [hn]
    · rw [he]
  have h2 := book_seats_error_state h1
  unfold noSeatsError at h1
  exact ⟨_, _, h1, h2⟩

theorem book_nonpositive_size_fails_no_seats_witness :
    ∃ msg alts, (book_seats exDB req0 "AB12CD34" 1).1 =
        Except.error (BookError.noSeatsAvailable msg alts) ∧
      (book_seats exDB req0 "AB12CD34" 1).2 = exDB :=
  book_nonpositive_size_fails_no_seats exDB req0 "AB12CD34" 1
    exShow exHall exMovie exTheater (by decide) rfl

/-- Claim C8: every successful `book_seats` call returns and persists
`amount = groupSize × show.price`; in particular group size 4 at price 250
gives amount 1000. -/
theorem book_amount_calculation
    (db : DB) (booking : BookingRequest) (ref : String) (nid : Nat)
    (res : BookResult) (db' : DB)
    (hok : book_seats db booking ref nid = (Except.ok res, db')) :
    ∃ s h m t, findShow db booking = some (s, h, m, t) ∧
      res.amount = (booking.group_size : ℚ) * m.price ∧
      ∃ bk, db'.bookings = db.bookings ++ [bk] ∧ bk.amount = res.amount ∧
        bk.size = booking.group_size := by
  obtain ⟨s, h, m, t, seats, hfind, hfs, hne, hres, hdb⟩ := book_seats_ok_inv hok
  subst hres hdb
  exact ⟨s, h, m, t, hfind, rfl, _, rfl, rfl, rfl⟩

theorem book_amount_calculation_witness :
    (∃ s h m t, findShow exDB exReq = some (s, h, m, t) ∧
      exRes.amount = (exReq.group_size : ℚ) * m.price ∧
      ∃ bk, exDBafter.bookings = exDB.bookings ++ [bk] ∧ bk.amount = exRes.amount ∧
        bk.size = exReq.group_size) ∧
    exRes.amount = 1000 := by
  refine ⟨book_amount_calculation exDB exReq "AB12CD34" 1 exRes exDBafter rfl, ?_⟩
  show ((4 : Int) : ℚ) * 250 = 1000
  norm_num

/-- Claim C9: for an existing hall, `hall_layout` returns one entry per row
in order; row `i` (0-based) is numbered `i+1` and lists seats `1..cap` with
`column = ((seat - 1) / 2) + 1` (integer division); a seat's booked flag is
true exactly when some booking of the given show contains that coordinate;
and `booked_count` is the number of distinct booked coordinates of that
show. -/
theorem hall_layout_derivation
    (db : DB) (hall_id sid : Nat) (hall : Hall) (res : HallLayoutResult)
    (hsid : sid ≠ 0)
    (hhall : lookupHall db hall_id = some hall)
    (hres : hall_layout db hall_id (some sid) = some res) :
    res.layout.length = hall.rows.length ∧
    (∀ i cap, hall.rows[i]? = some cap →
      ∃ lr, res.layout[i]? = some lr ∧ lr.row = i + 1 ∧ lr.seats.length = cap ∧
        ∀ j, j < cap → ∃ ls, lr.seats[j]? = some ls ∧ ls.seat = j + 1 ∧
          ls.column = (ls.seat - 1) / 2 + 1 ∧
          (ls.booked = true ↔ ∃ b ∈ db.bookings, b.show_id = sid ∧
            (⟨i + 1, j + 1⟩ : Seat) ∈ b.seats)) ∧
    res.booked_count = (get_booked_seats db.bookings sid).card ∧
    ∀ x, x ∈ get_booked_seats db.bookings sid ↔
      ∃ b ∈ db.bookings, b.show_id = sid ∧ x ∈ b.seats := by
  unfold hall_layout at hres
  rw [hhall] at hres
  dsimp only at hres
  rw [if_neg (by simpa using hsid)] at hres
  have hr := (Option.some.inj hres).symm
  subst hr
  refine ⟨layoutRows_length _ 1 hall.rows, ?_, rfl, fun x => mem_get_booked_seats⟩
  intro i cap hcap
  have e : 1 + i = i + 1 := by omega
  have hlr := @layoutRows_getElem? (get_booked_seats db.bookings sid) 1 hall.rows i cap hcap
  rw [e] at hlr
  refine ⟨_, hlr, rfl, rowSeats_length _ _ _, ?_⟩
  intro j hj
  have hls := rowSeats_getElem? (get_booked_seats db.bookings sid) (i + 1) cap j hj
  refine ⟨_, hls, rfl, ?_, ?_⟩
  · dsimp only
    omega
  · dsimp only
    rw [decide_eq_true_eq]
    exact mem_get_booked_seats

theorem hall_layout_derivation_witness :
    fullLayoutRes.layout.length = fullHallSmall.rows.length ∧
    (∀ i cap, fullHallSmall.rows[i]? = some cap →
      ∃ lr, fullLayoutRes.layout[i]? = some lr ∧ lr.row = i + 1 ∧
        lr.seats.length = cap ∧
        ∀ j, j < cap → ∃ ls, lr.seats[j]? = some ls ∧ ls.seat = j + 1 ∧
          ls.column = (ls.seat - 1) / 2 + 1 ∧
          (ls.booked = true ↔ ∃ b ∈ fullDB.bookings, b.show_id = 1 ∧
            (⟨i + 1, j + 1⟩ : Seat) ∈ b.seats)) ∧
    fullLayoutRes.booked_count = (get_booked_seats fullDB.bookings 1).card ∧
    ∀ x, x ∈ get_booked_seats fullDB.bookings 1 ↔
      ∃ b ∈ fullDB.bookings, b.show_id = 1 ∧ x ∈ b.seats :=
  hall_layout_derivation fullDB 1 1 fullHallSmall fullLayoutRes (by decide) rfl rfl

/-- Claim C10 (implicit): when the shows table has pairwise distinct ids and
`book_seats` fails with `noSeatsAvailable` on a resolved show, the attached
alternatives never contain that show itself: the alternative scan re-runs
the allocator against the same unchanged booked-seat set, which fails
again. -/
theorem alternatives_never_contain_requested_show
    (db : DB) (booking : BookingRequest) (ref : String) (nid : Nat)
    (msg : String) (alts : List AltShow)
    (hids : db.shows.Pairwise (fun a b => a.id ≠ b.id))
    (herr : (book_seats db booking ref nid).1 =
      Except.error (BookError.noSeatsAvailable msg alts)) :
    ∃ s h m t, findShow db booking = some (s, h, m, t) ∧
      ∀ a ∈ alts, a.show_id ≠ s.id := by
  obtain ⟨s, h, m, t, hfind, hfs, -, halts⟩ := book_seats_noSeats_inv herr
  refine ⟨s, h, m, t, hfind, ?_⟩
  intro a ha has
  subst halts
  obtain ⟨s', hs', hsum⟩ := mem_find_other_shows ha
  obtain ⟨hid, -, -, hl, hh, seats, hfs', hne⟩ := altSummary_eq_some hsum
  have hss : s' = s :=
    eq_of_pairwise_ne_id hids hs' (findShow_eq_some hfind).1 (hid.symm.trans has)
  subst hss
  have hhall := (findShow_eq_some hfind).2.2.2.1
  have hlh : hl = h := Option.some.inj (hh.symm.trans hhall)
  subst hlh
  rcases hfs with hn | he
  · rw [hn] at hfs'; cases hfs'
  · rw [he] at hfs'
    exact hne (Option.some.inj hfs').symm

theorem alternatives_never_contain_requested_show_witness :
    ∃ s h m t, findShow fullDB fullReq = some (s, h, m, t) ∧
      ∀ a ∈ ([⟨2, "Avengers", "PVR Mall", "2024-12-01 18:00"⟩] : List AltShow),
        a.show_id ≠ s.id :=
  alternatives_never_contain_requested_show fullDB fullReq "AB12CD34" 9
    "Cannot book 2 seats together" [⟨2, "Avengers", "PVR Mall", "2024-12-01 18:00"⟩]
    (by decide) (by decide)

end MovieBooking
